import Mathlib

/-!
Shallow embedding of the sampling engine of the SamplingExercise repository
(src/generating_functions.py and src/helpers/probability_density_functions.py).

The Python code draws from a single global numpy uniform stream.  We model the
stream as a function u over the natural numbers (the values the stream would
produce, in order) together with a cursor k; each draw reads u at the cursor and
advances the cursor by one.  Floating point arithmetic is modelled over the real
numbers.  Python exceptions are modelled with Except: the InvalidParametersError
raised by the validation checks, and the ZeroDivisionError that Python raises
when an integer division 1/alpha meets alpha = 0.  The isinstance type checks of
the Python code are vacuous in this typed embedding (parameters arrive as reals
and integers), so only the value-level checks remain.
-/

namespace SamplingExercise

/-- Errors a generator call can end with: the InvalidParametersError raised by
the validation checks (with its message), or the ZeroDivisionError Python raises
on division by an integer zero. -/
inductive GenError where
  | invalidParameters (message : String)
  | zeroDivision
deriving DecidableEq

/-- Reading n successive values from the uniform stream u starting at cursor k.
This models a call np.random.uniform(0, 1, n) of the seeded global stream. -/
def draws (u : ℕ → ℝ) (k : ℕ) : ℕ → List ℝ
  | 0 => []
  | n + 1 => u k :: draws u (k + 1) n

/-- The property that a stream only produces values in the half open interval
from 0 inclusive to 1 exclusive, as np.random.uniform(0, 1) does. -/
def UniformStream (u : ℕ → ℝ) : Prop :=
  ∀ i, 0 ≤ u i ∧ u i < 1

/-- Embeds get_x_from_uniform of src/generating_functions.py: the piecewise
inverse triangular CDF applied to one uniform value. -/
noncomputable def get_x_from_uniform (U a b c cdf_at_c : ℝ) : ℝ :=
  if U < cdf_at_c then
    Real.sqrt (U * (b - a) * (c - a)) + a
  else
    b - Real.sqrt ((1 - U) * (b - a) * (b - c))

/-- Embeds get_value_from_probability of src/generating_functions.py: the list
comprehension applying get_x_from_uniform to every uniform sample. -/
noncomputable def get_value_from_probability (samples : List ℝ) (cdf_at_c a b c : ℝ) :
    List ℝ :=
  samples.map (fun U => get_x_from_uniform U a b c cdf_at_c)

/-- Embeds generate_triangular of src/generating_functions.py.  The isinstance
check is vacuous here; the value check (not a < c < b or not n_samples > 0)
raises before any draw, otherwise n_samples uniforms are drawn and transformed.
Returns the result together with the new stream cursor. -/
noncomputable def generate_triangular (n_samples : ℤ) (a b c : ℝ) (u : ℕ → ℝ) (k : ℕ) :
    Except GenError (List ℝ) × ℕ :=
  if ¬(a < c ∧ c < b) ∨ ¬(0 < n_samples) then
    (Except.error (GenError.invalidParameters
      "a < c < b must be satisfied and n_samples must be greater than 0"), k)
  else
    let samples := draws u k n_samples.toNat
    let cdf_value_at_c := (c - a) / (b - a)
    (Except.ok (get_value_from_probability samples cdf_value_at_c a b c),
      k + n_samples.toNat)

/-- Embeds get_x_from_pareto of src/generating_functions.py: the Pareto inverse
CDF xm / pow(1 - U, 1/alpha).  Python evaluates 1/alpha as integer-to-float
division and raises ZeroDivisionError when alpha = 0, which the embedding makes
explicit; otherwise the real power models the float pow on the positive base
1 - U. -/
noncomputable def get_x_from_pareto (U xm : ℝ) (alpha : ℤ) : Except GenError ℝ :=
  if alpha = 0 then
    Except.error GenError.zeroDivision
  else
    Except.ok (xm / (1 - U) ^ ((1 : ℝ) / (alpha : ℝ)))

/-- Embeds get_pareto_value_from_probability of src/generating_functions.py: the
list comprehension applying get_x_from_pareto left to right, propagating the
first exception. -/
noncomputable def get_pareto_value_from_probability (samples : List ℝ) (xm : ℝ)
    (alpha : ℤ) : Except GenError (List ℝ) :=
  match samples with
  | [] => Except.ok []
  | U :: rest =>
    match get_x_from_pareto U xm alpha with
    | Except.error e => Except.error e
    | Except.ok x =>
      match get_pareto_value_from_probability rest xm alpha with
      | Except.error e => Except.error e
      | Except.ok xs => Except.ok (x :: xs)

/-- Embeds generate_pareto_distribution of src/generating_functions.py.  The
isinstance check is vacuous here; only n_samples > 0 is validated (positivity of
xm and alpha is not checked).  The n uniforms are drawn before the transform, so
the cursor advances by n even when the transform raises. -/
noncomputable def generate_pareto_distribution (n_samples : ℤ) (xm : ℝ) (alpha : ℤ)
    (u : ℕ → ℝ) (k : ℕ) : Except GenError (List ℝ) × ℕ :=
  if ¬(0 < n_samples) then
    (Except.error (GenError.invalidParameters
      "n_samples must be greater than 0"), k)
  else
    let samples := draws u k n_samples.toNat
    (get_pareto_value_from_probability samples xm alpha, k + n_samples.toNat)

/-- Embeds exponential_pdf of src/helpers/probability_density_functions.py:
the Exponential(0.75) density. -/
noncomputable def exponential_pdf (x : ℝ) : ℝ :=
  0.75 * Real.exp (-0.75 * x)

/-- Embeds gamma_pdf of src/helpers/probability_density_functions.py: the
Gamma(shape 2, rate 1.5) density. -/
noncomputable def gamma_pdf (x : ℝ) : ℝ :=
  2.25 * x * Real.exp (-1.5 * x)

/-- Embeds the acceptance loop of generate_gamma_distribution_samples: for each
proposal, one further uniform is drawn (the cursor advances unconditionally) and
the proposal is kept iff the draw is at most gamma_pdf / (M * exponential_pdf)
at the proposal. -/
noncomputable def gamma_accept_loop (proposals : List ℝ) (u : ℕ → ℝ) (k : ℕ) (M : ℝ) :
    List ℝ × ℕ :=
  match proposals with
  | [] => ([], k)
  | sample :: rest =>
    let v := u k
    let next := gamma_accept_loop rest u (k + 1) M
    if v ≤ gamma_pdf sample / (M * exponential_pdf sample) then
      (sample :: next.1, next.2)
    else
      next

/-- Embeds generate_gamma_distribution_samples of src/generating_functions.py.
The isinstance check is vacuous here; n_samples > 0 is validated before any
draw.  Then n uniforms are drawn and transformed through the exponential inverse
CDF, and the acceptance loop draws one further uniform per proposal. -/
noncomputable def generate_gamma_distribution_samples (n_samples : ℤ) (u : ℕ → ℝ)
    (k : ℕ) : Except GenError (List ℝ) × ℕ :=
  if ¬(0 < n_samples) then
    (Except.error (GenError.invalidParameters
      "n_samples must be greater than 0"), k)
  else
    let lambda_2 : ℝ := 0.75
    let M : ℝ := 4 / Real.exp 1
    let samples := draws u k n_samples.toNat
    let exponential_samples := samples.map (fun s => -Real.log (1 - s) / lambda_2)
    let result := gamma_accept_loop exponential_samples u (k + n_samples.toNat) M
    (Except.ok result.1, result.2)

/-- Spec side definition, following the words of the spec for the Triangular
Generator: with F(c) = (c-a)/(b-a), the piecewise inverse CDF sends U to
a + sqrt(U (b-a) (c-a)) when U < F(c), and to b - sqrt((1-U) (b-a) (b-c))
otherwise. -/
noncomputable def spec_triangular_inverse_cdf (U a b c : ℝ) : ℝ :=
  if U < (c - a) / (b - a) then
    a + Real.sqrt (U * (b - a) * (c - a))
  else
    b - Real.sqrt ((1 - U) * (b - a) * (b - c))

/-- Spec side definition, following the words of the spec for the Pareto
Generator: the inverse CDF x = xm / (1-U)^(1/alpha). -/
noncomputable def spec_pareto_inverse_cdf (U xm : ℝ) (alpha : ℤ) : ℝ :=
  xm / (1 - U) ^ ((1 : ℝ) / (alpha : ℝ))

/-- Spec side definition, following the words of the spec for the Gamma
Generator: pair the i-th proposal y = -ln(1 - U)/0.75 with its acceptance draw
V, and keep, in proposal order, exactly those y with
V ≤ gammaPDF(y) / (M exponentialPDF(y)), where M = 4/e,
gammaPDF(y) = 2.25 y exp(-1.5 y) and exponentialPDF(y) = 0.75 exp(-0.75 y). -/
noncomputable def spec_gamma_accepted (n : ℕ) (u : ℕ → ℝ) (k : ℕ) : List ℝ :=
  ((List.range n).map
      (fun i => (-Real.log (1 - u (k + i)) / 0.75, u (k + n + i)))).filterMap
    (fun p =>
      if p.2 ≤ (2.25 * p.1 * Real.exp (-1.5 * p.1)) /
          ((4 / Real.exp 1) * (0.75 * Real.exp (-0.75 * p.1))) then
        some p.1
      else
        none)

/-! ### Basic lemmas about the stream model -/

lemma draws_length (u : ℕ → ℝ) (k n : ℕ) : (draws u k n).length = n := by
  induction n generalizing k with
  | zero => rfl
  | succ m ih => simp [draws, ih]

lemma draws_eq_range_map (u : ℕ → ℝ) (k n : ℕ) :
    draws u k n = (List.range n).map (fun i => u (k + i)) := by
  induction n generalizing k with
  | zero => rfl
  | succ m ih =>
    rw [draws, ih, List.range_succ_eq_map]
    simp only [List.map_cons, List.map_map, Nat.add_zero]
    refine congrArg (u k :: ·) (List.map_congr_left fun i _ => ?_)
    simp [Function.comp, Nat.add_comm, Nat.add_assoc, Nat.add_left_comm]

lemma draws_get (u : ℕ → ℝ) (k n i : ℕ) (h : i < (draws u k n).length) :
    (draws u k n).get ⟨i, h⟩ = u (k + i) := by
  have h' : i < n := by simpa [draws_length] using h
  simp [draws_eq_range_map, List.getElem_map, h']

lemma draws_mem (u : ℕ → ℝ) (k n : ℕ) (x : ℝ) (hx : x ∈ draws u k n) :
    ∃ i, i < n ∧ x = u (k + i) := by
  rw [draws_eq_range_map] at hx
  rcases List.mem_map.mp hx with ⟨i, hi, rfl⟩
  exact ⟨i, List.mem_range.mp hi, rfl⟩

lemma draws_congr (u₁ u₂ : ℕ → ℝ) (k n : ℕ)
    (h : ∀ i, i < n → u₁ (k + i) = u₂ (k + i)) :
    draws u₁ k n = draws u₂ k n := by
  rw [draws_eq_range_map, draws_eq_range_map]
  exact List.map_congr_left fun i hi => h i (List.mem_range.mp hi)

/-! ### Triangular generator -/

lemma get_x_from_uniform_bounds {U a b c : ℝ} (_hU0 : 0 ≤ U) (_hU1 : U < 1)
    (hac : a < c) (hcb : c < b) :
    a ≤ get_x_from_uniform U a b c ((c - a) / (b - a)) ∧
      get_x_from_uniform U a b c ((c - a) / (b - a)) ≤ b := by
  have hba : (0 : ℝ) < b - a := by linarith
  rw [get_x_from_uniform]
  split
  case isTrue h =>
    have h1 : U * (b - a) < c - a := (lt_div_iff₀ hba).mp h
    constructor
    · have := Real.sqrt_nonneg (U * (b - a) * (c - a))
      linarith
    · have h2 : U * (b - a) * (c - a) ≤ (c - a) ^ 2 := by nlinarith
      have h3 : Real.sqrt (U * (b - a) * (c - a)) ≤ c - a := by
        calc Real.sqrt (U * (b - a) * (c - a))
            ≤ Real.sqrt ((c - a) ^ 2) := Real.sqrt_le_sqrt h2
          _ = c - a := Real.sqrt_sq (by linarith)
      linarith
  case isFalse h =>
    have h' : (c - a) / (b - a) ≤ U := not_lt.mp h
    have h1 : c - a ≤ U * (b - a) := (div_le_iff₀ hba).mp h'
    constructor
    · have h2 : (1 - U) * (b - a) * (b - c) ≤ (b - c) ^ 2 := by nlinarith
      have h3 : Real.sqrt ((1 - U) * (b - a) * (b - c)) ≤ b - c := by
        calc Real.sqrt ((1 - U) * (b - a) * (b - c))
            ≤ Real.sqrt ((b - c) ^ 2) := Real.sqrt_le_sqrt h2
          _ = b - c := Real.sqrt_sq (by linarith)
      linarith
    · have := Real.sqrt_nonneg ((1 - U) * (b - a) * (b - c))
      linarith

lemma generate_triangular_ok {n : ℤ} {a b c : ℝ} (u : ℕ → ℝ) (k : ℕ)
    (hn : 0 < n) (hac : a < c) (hcb : c < b) :
    generate_triangular n a b c u k =
      (Except.ok ((draws u k n.toNat).map
        (fun U => get_x_from_uniform U a b c ((c - a) / (b - a)))),
       k + n.toNat) := by
  rw [generate_triangular, if_neg]
  · rfl
  · push_neg
    exact ⟨⟨hac, hcb⟩, hn⟩

/-- Claim C1: for every integer n > 0 and reals a, b, c with a < c < b, and any
stream of uniform values in the interval from 0 inclusive to 1 exclusive,
generate_triangular succeeds and returns an ordered sequence of exactly n
values, each lying in the closed interval from a to b. -/
theorem generate_triangular_length_and_range (n : ℤ) (a b c : ℝ) (u : ℕ → ℝ)
    (k : ℕ) (hn : 0 < n) (hac : a < c) (hcb : c < b) (hu : UniformStream u) :
    ∃ l, (generate_triangular n a b c u k).1 = Except.ok l ∧
      l.length = n.toNat ∧ ∀ x ∈ l, a ≤ x ∧ x ≤ b := by
  refine ⟨_, by rw [generate_triangular_ok u k hn hac hcb], ?_, ?_⟩
  · simp [draws_length]
  · intro x hx
    rcases List.mem_map.mp hx with ⟨U, hU, rfl⟩
    rcases draws_mem u k n.toNat U hU with ⟨i, _, rfl⟩
    exact get_x_from_uniform_bounds (hu (k + i)).1 (hu (k + i)).2 hac hcb

/-- Witness for C1 at n = 1, a = 0, b = 2, c = 1 and the constant zero
stream. -/
theorem generate_triangular_length_and_range_witness :
    (0 : ℤ) < 1 ∧ (0 : ℝ) < 1 ∧ (1 : ℝ) < 2 ∧ UniformStream (fun _ => 0) ∧
      (∃ l, (generate_triangular 1 0 2 1 (fun _ => 0) 0).1 = Except.ok l ∧
        l.length = (1 : ℤ).toNat ∧ ∀ x ∈ l, (0 : ℝ) ≤ x ∧ x ≤ 2) :=
  ⟨by norm_num, by norm_num, by norm_num, fun i => by norm_num,
    generate_triangular_length_and_range 1 0 2 1 (fun _ => 0) 0 (by norm_num)
      (by norm_num) (by norm_num) (fun i => by norm_num)⟩

/-- Claim C2: the i-th value returned by generate_triangular equals the
piecewise inverse CDF of the spec applied to the i-th uniform draw in draw
order. -/
theorem generate_triangular_matches_spec_inverse_cdf (n : ℤ) (a b c : ℝ)
    (u : ℕ → ℝ) (k : ℕ) (hn : 0 < n) (hac : a < c) (hcb : c < b) :
    ∃ l, (generate_triangular n a b c u k).1 = Except.ok l ∧
      l.length = n.toNat ∧
      ∀ i, (hi : i < l.length) →
        l.get ⟨i, hi⟩ = spec_triangular_inverse_cdf (u (k + i)) a b c := by
  refine ⟨_, by rw [generate_triangular_ok u k hn hac hcb], ?_, ?_⟩
  · simp [draws_length]
  · intro i hi
    have hi' : i < (draws u k n.toNat).length := by
      simpa [draws_length] using hi
    simp only [List.get_eq_getElem, List.getElem_map]
    rw [← List.get_eq_getElem (draws u k n.toNat) ⟨i, hi'⟩,
      draws_get u k n.toNat i hi']
    rw [get_x_from_uniform, spec_triangular_inverse_cdf]
    split <;> ring

/-- Witness for C2 at n = 1, a = 0, b = 2, c = 1 and the constant zero
stream. -/
theorem generate_triangular_matches_spec_inverse_cdf_witness :
    (0 : ℤ) < 1 ∧ (0 : ℝ) < 1 ∧ (1 : ℝ) < 2 ∧
      (∃ l, (generate_triangular 1 0 2 1 (fun _ => 0) 0).1 = Except.ok l ∧
        l.length = (1 : ℤ).toNat ∧
        ∀ i, (hi : i < l.length) →
          l.get ⟨i, hi⟩ = spec_triangular_inverse_cdf ((fun _ => (0 : ℝ)) (0 + i)) 0 2 1) :=
  ⟨by norm_num, by norm_num, by norm_num,
    generate_triangular_matches_spec_inverse_cdf 1 0 2 1 (fun _ => 0) 0
      (by norm_num) (by norm_num) (by norm_num)⟩

/-! ### Pareto generator -/

lemma get_x_from_pareto_ok {alpha : ℤ} (halpha : alpha ≠ 0) (U xm : ℝ) :
    get_x_from_pareto U xm alpha = Except.ok (spec_pareto_inverse_cdf U xm alpha) := by
  rw [get_x_from_pareto, if_neg halpha, spec_pareto_inverse_cdf]

lemma get_pareto_value_from_probability_ok {alpha : ℤ} (halpha : alpha ≠ 0)
    (l : List ℝ) (xm : ℝ) :
    get_pareto_value_from_probability l xm alpha =
      Except.ok (l.map (fun U => spec_pareto_inverse_cdf U xm alpha)) := by
  induction l with
  | nil => rfl
  | cons U rest ih =>
    rw [get_pareto_value_from_probability, get_x_from_pareto_ok halpha, ih]
    rfl

lemma get_pareto_value_from_probability_error {alpha : ℤ} {l : List ℝ} {xm : ℝ}
    {e : GenError} (h : get_pareto_value_from_probability l xm alpha = Except.error e) :
    e = GenError.zeroDivision ∧ alpha = 0 := by
  induction l with
  | nil => exact absurd h (by rw [get_pareto_value_from_probability]; simp)
  | cons U rest ih =>
    rw [get_pareto_value_from_probability] at h
    by_cases halpha : alpha = 0
    · rw [get_x_from_pareto, if_pos halpha] at h
      exact ⟨(Except.error.inj h).symm, halpha⟩
    · rw [get_x_from_pareto_ok halpha] at h
      rcases hrec : get_pareto_value_from_probability rest xm alpha with e' | xs
      · rw [hrec] at h
        exact ih (by rw [hrec, Except.error.inj h])
      · rw [hrec] at h
        exact absurd h (by simp)

lemma spec_pareto_inverse_cdf_ge {U xm : ℝ} {alpha : ℤ} (hU0 : 0 ≤ U)
    (hU1 : U < 1) (hxm : 0 < xm) (halpha : 0 < alpha) :
    xm ≤ spec_pareto_inverse_cdf U xm alpha := by
  rw [spec_pareto_inverse_cdf]
  have h1U : (0 : ℝ) < 1 - U := by linarith
  have hd0 : (0 : ℝ) < (1 - U) ^ ((1 : ℝ) / (alpha : ℝ)) :=
    Real.rpow_pos_of_pos h1U _
  have hexp : (0 : ℝ) ≤ (1 : ℝ) / (alpha : ℝ) := by
    have : (0 : ℝ) < (alpha : ℝ) := by exact_mod_cast halpha
    positivity
  have hd1 : (1 - U) ^ ((1 : ℝ) / (alpha : ℝ)) ≤ 1 :=
    Real.rpow_le_one (le_of_lt h1U) (by linarith) hexp
  rw [le_div_iff₀ hd0]
  nlinarith

lemma spec_pareto_inverse_cdf_le {U xm : ℝ} {alpha : ℤ} (hU0 : 0 ≤ U)
    (hU1 : U < 1) (hxm : xm ≤ 0) (halpha : 0 < alpha) :
    spec_pareto_inverse_cdf U xm alpha ≤ xm := by
  rw [spec_pareto_inverse_cdf]
  have h1U : (0 : ℝ) < 1 - U := by linarith
  have hd0 : (0 : ℝ) < (1 - U) ^ ((1 : ℝ) / (alpha : ℝ)) :=
    Real.rpow_pos_of_pos h1U _
  have hexp : (0 : ℝ) ≤ (1 : ℝ) / (alpha : ℝ) := by
    have : (0 : ℝ) < (alpha : ℝ) := by exact_mod_cast halpha
    positivity
  have hd1 : (1 - U) ^ ((1 : ℝ) / (alpha : ℝ)) ≤ 1 :=
    Real.rpow_le_one (le_of_lt h1U) (by linarith) hexp
  rw [div_le_iff₀ hd0]
  nlinarith

lemma generate_pareto_distribution_ok {n alpha : ℤ} (hn : 0 < n)
    (halpha : alpha ≠ 0) (xm : ℝ) (u : ℕ → ℝ) (k : ℕ) :
    generate_pareto_distribution n xm alpha u k =
      (Except.ok ((draws u k n.toNat).map
        (fun U => spec_pareto_inverse_cdf U xm alpha)), k + n.toNat) := by
  rw [generate_pareto_distribution, if_neg (by simpa using hn)]
  simp only [get_pareto_value_from_probability_ok halpha]

/-- Claim C3: for n > 0, xm > 0 and integer alpha > 0, and any stream of
uniform values in the interval from 0 inclusive to 1 exclusive,
generate_pareto_distribution returns exactly n values in draw order, the i-th
equal to xm / (1 - U_i)^(1/alpha) for the i-th uniform draw, and every value is
at least xm. -/
theorem generate_pareto_matches_spec_and_ge_xm (n : ℤ) (xm : ℝ) (alpha : ℤ)
    (u : ℕ → ℝ) (k : ℕ) (hn : 0 < n) (hxm : 0 < xm) (halpha : 0 < alpha)
    (hu : UniformStream u) :
    ∃ l, (generate_pareto_distribution n xm alpha u k).1 = Except.ok l ∧
      l.length = n.toNat ∧
      (∀ i, (hi : i < l.length) →
        l.get ⟨i, hi⟩ = spec_pareto_inverse_cdf (u (k + i)) xm alpha) ∧
      ∀ x ∈ l, xm ≤ x := by
  have hne : alpha ≠ 0 := ne_of_gt halpha
  refine ⟨_, by rw [generate_pareto_distribution_ok hn hne xm u k], ?_, ?_, ?_⟩
  · simp [draws_length]
  · intro i hi
    have hi' : i < (draws u k n.toNat).length := by
      simpa [draws_length] using hi
    simp only [List.get_eq_getElem, List.getElem_map]
    rw [← List.get_eq_getElem (draws u k n.toNat) ⟨i, hi'⟩,
      draws_get u k n.toNat i hi']
  · intro x hx
    rcases List.mem_map.mp hx with ⟨U, hU, rfl⟩
    rcases draws_mem u k n.toNat U hU with ⟨i, _, rfl⟩
    exact spec_pareto_inverse_cdf_ge (hu (k + i)).1 (hu (k + i)).2 hxm halpha

/-- Witness for C3 at n = 1, xm = 3, alpha = 2 and the constant zero stream. -/
theorem generate_pareto_matches_spec_and_ge_xm_witness :
    (0 : ℤ) < 1 ∧ (0 : ℝ) < 3 ∧ (0 : ℤ) < 2 ∧ UniformStream (fun _ => 0) ∧
      (∃ l, (generate_pareto_distribution 1 3 2 (fun _ => 0) 0).1 = Except.ok l ∧
        l.length = (1 : ℤ).toNat ∧
        (∀ i, (hi : i < l.length) →
          l.get ⟨i, hi⟩ = spec_pareto_inverse_cdf ((fun _ => (0 : ℝ)) (0 + i)) 3 2) ∧
        ∀ x ∈ l, (3 : ℝ) ≤ x) :=
  ⟨by norm_num, by norm_num, by norm_num, fun i => by norm_num,
    generate_pareto_matches_spec_and_ge_xm 1 3 2 (fun _ => 0) 0 (by norm_num)
      (by norm_num) (by norm_num) (fun i => by norm_num)⟩

/-- Claim C10: generate_pareto_distribution does not check positivity of xm or
alpha: with n > 0, integer alpha > 0 and xm at most 0, the call raises no error
and returns n values, each at most xm. -/
theorem generate_pareto_nonpositive_xm_unchecked (n : ℤ) (xm : ℝ) (alpha : ℤ)
    (u : ℕ → ℝ) (k : ℕ) (hn : 0 < n) (hxm : xm ≤ 0) (halpha : 0 < alpha)
    (hu : UniformStream u) :
    ∃ l, (generate_pareto_distribution n xm alpha u k).1 = Except.ok l ∧
      l.length = n.toNat ∧ ∀ x ∈ l, x ≤ xm := by
  have hne : alpha ≠ 0 := ne_of_gt halpha
  refine ⟨_, by rw [generate_pareto_distribution_ok hn hne xm u k], ?_, ?_⟩
  · simp [draws_length]
  · intro x hx
    rcases List.mem_map.mp hx with ⟨U, hU, rfl⟩
    rcases draws_mem u k n.toNat U hU with ⟨i, _, rfl⟩
    exact spec_pareto_inverse_cdf_le (hu (k + i)).1 (hu (k + i)).2 hxm halpha

/-- Witness for C10 at n = 1, xm = -2, alpha = 3 and the constant zero
stream. -/
theorem generate_pareto_nonpositive_xm_unchecked_witness :
    (0 : ℤ) < 1 ∧ (-2 : ℝ) ≤ 0 ∧ (0 : ℤ) < 3 ∧ UniformStream (fun _ => 0) ∧
      (∃ l, (generate_pareto_distribution 1 (-2) 3 (fun _ => 0) 0).1 = Except.ok l ∧
        l.length = (1 : ℤ).toNat ∧ ∀ x ∈ l, x ≤ (-2 : ℝ)) :=
  ⟨by norm_num, by norm_num, by norm_num, fun i => by norm_num,
    generate_pareto_nonpositive_xm_unchecked 1 (-2) 3 (fun _ => 0) 0
      (by norm_num) (by norm_num) (by norm_num) (fun i => by norm_num)⟩

/-! ### Gamma generator -/

lemma gamma_accept_loop_eq (l : List ℝ) (u : ℕ → ℝ) (k : ℕ) (M : ℝ) :
    gamma_accept_loop l u k M =
      ((l.zip (draws u k l.length)).filterMap
        (fun p =>
          if p.2 ≤ gamma_pdf p.1 / (M * exponential_pdf p.1) then some p.1
          else none),
       k + l.length) := by
  induction l generalizing k with
  | nil => simp [gamma_accept_loop]
  | cons s rest ih =>
    rw [gamma_accept_loop]
    simp only [ih (k + 1), List.length_cons, draws, List.zip_cons_cons,
      List.filterMap_cons]
    by_cases hc : u k ≤ gamma_pdf s / (M * exponential_pdf s)
    · simp only [hc, if_true, if_pos hc]
      exact Prod.ext rfl (by omega)
    · simp only [hc, if_false, if_neg hc]
      exact Prod.ext rfl (by omega)

lemma generate_gamma_ok {n : ℤ} (hn : 0 < n) (u : ℕ → ℝ) (k : ℕ) :
    generate_gamma_distribution_samples n u k =
      (Except.ok (spec_gamma_accepted n.toNat u k), k + 2 * n.toNat) := by
  rw [generate_gamma_distribution_samples, if_neg (by simpa using hn)]
  simp only [gamma_accept_loop_eq, List.length_map, draws_length]
  rw [draws_eq_range_map u k, draws_eq_range_map u (k + n.toNat), List.map_map,
    List.zip_map', List.filterMap_map, spec_gamma_accepted, List.filterMap_map]
  refine Prod.ext ?_ (by omega)
  simp only [Except.ok.injEq]
  refine List.filterMap_congr fun i _ => ?_
  simp [Function.comp, gamma_pdf, exponential_pdf, Nat.add_assoc]

/-- Claim C9: a successful call of generate_gamma_distribution_samples with
n > 0 advances the stream cursor by exactly 2 n, the n proposal draws followed
by one acceptance draw per proposal, whatever the accept or reject outcomes
are. -/
theorem generate_gamma_consumes_two_n_draws (n : ℤ) (u : ℕ → ℝ) (k : ℕ)
    (hn : 0 < n) :
    (generate_gamma_distribution_samples n u k).2 = k + 2 * n.toNat := by
  rw [generate_gamma_ok hn u k]

/-- Witness for C9 at n = 2, cursor 5 and the constant zero stream. -/
theorem generate_gamma_consumes_two_n_draws_witness :
    (0 : ℤ) < 2 ∧
      (generate_gamma_distribution_samples 2 (fun _ => 0) 5).2 = 5 + 2 * (2 : ℤ).toNat :=
  ⟨by norm_num,
    generate_gamma_consumes_two_n_draws 2 (fun _ => 0) 5 (by norm_num)⟩

/-- Claim C5: for n > 0, the output of generate_gamma_distribution_samples is
exactly the subsequence, in proposal order, of the proposals
y_i = -ln(1 - U_i)/0.75 whose paired acceptance draw V_i satisfies
V_i ≤ gammaPDF(y_i) / (M exponentialPDF(y_i)) with M = 4/e; rejected proposals
are discarded, not replaced. -/
theorem generate_gamma_eq_spec_accepted (n : ℤ) (u : ℕ → ℝ) (k : ℕ)
    (hn : 0 < n) :
    (generate_gamma_distribution_samples n u k).1 =
      Except.ok (spec_gamma_accepted n.toNat u k) := by
  rw [generate_gamma_ok hn u k]

/-- Witness for C5 at n = 1, cursor 0 and the constant zero stream. -/
theorem generate_gamma_eq_spec_accepted_witness :
    (0 : ℤ) < 1 ∧
      (generate_gamma_distribution_samples 1 (fun _ => 0) 0).1 =
        Except.ok (spec_gamma_accepted (1 : ℤ).toNat (fun _ => 0) 0) :=
  ⟨by norm_num, generate_gamma_eq_spec_accepted 1 (fun _ => 0) 0 (by norm_num)⟩

lemma spec_gamma_accepted_length_le (n : ℕ) (u : ℕ → ℝ) (k : ℕ) :
    (spec_gamma_accepted n u k).length ≤ n := by
  calc (spec_gamma_accepted n u k).length
      ≤ ((List.range n).map
          (fun i => (-Real.log (1 - u (k + i)) / 0.75, u (k + n + i)))).length :=
        List.length_filterMap_le _ _
    _ = n := by simp

lemma exp_proposal_nonneg {U : ℝ} (hU0 : 0 ≤ U) (hU1 : U < 1) :
    0 ≤ -Real.log (1 - U) / 0.75 := by
  have hlog : Real.log (1 - U) ≤ 0 := Real.log_nonpos (by linarith) (by linarith)
  exact div_nonneg (by linarith) (by norm_num)

lemma spec_gamma_accepted_nonneg {u : ℕ → ℝ} (hu : UniformStream u) (n k : ℕ) :
    ∀ x ∈ spec_gamma_accepted n u k, 0 ≤ x := by
  intro x hx
  rw [spec_gamma_accepted] at hx
  rcases List.mem_filterMap.mp hx with ⟨p, hp, hpx⟩
  rcases List.mem_map.mp hp with ⟨i, _, rfl⟩
  split at hpx
  · rcases Option.some.inj hpx with rfl
    exact exp_proposal_nonneg (hu (k + i)).1 (hu (k + i)).2
  · exact absurd hpx (by simp)

/-- Claim C4: for every integer n > 0 and any stream of uniform values in the
interval from 0 inclusive to 1 exclusive, generate_gamma_distribution_samples
returns a sequence whose length is between 0 and n inclusive, every value of
which is non-negative. -/
theorem generate_gamma_length_and_nonneg (n : ℤ) (u : ℕ → ℝ) (k : ℕ)
    (hn : 0 < n) (hu : UniformStream u) :
    ∃ l, (generate_gamma_distribution_samples n u k).1 = Except.ok l ∧
      l.length ≤ n.toNat ∧ ∀ x ∈ l, 0 ≤ x := by
  refine ⟨spec_gamma_accepted n.toNat u k, ?_, ?_, ?_⟩
  · rw [generate_gamma_ok hn u k]
  · exact spec_gamma_accepted_length_le n.toNat u k
  · exact spec_gamma_accepted_nonneg hu n.toNat k

/-- Witness for C4 at n = 1, cursor 0 and the constant zero stream. -/
theorem generate_gamma_length_and_nonneg_witness :
    (0 : ℤ) < 1 ∧ UniformStream (fun _ => 0) ∧
      (∃ l, (generate_gamma_distribution_samples 1 (fun _ => 0) 0).1 = Except.ok l ∧
        l.length ≤ (1 : ℤ).toNat ∧ ∀ x ∈ l, (0 : ℝ) ≤ x) :=
  ⟨by norm_num, fun i => by norm_num,
    generate_gamma_length_and_nonneg 1 (fun _ => 0) 0 (by norm_num)
      (fun i => by norm_num)⟩

/-! ### Error handling and stream discipline -/

/-- Claim C6: for each generator, every input rejected by its validation makes
the call end in the InvalidParameters error with the stream cursor unchanged:
the error is raised before any value is drawn, so no entropy is consumed. -/
theorem invalid_inputs_leave_stream_unchanged (n : ℤ) (a b c xm : ℝ)
    (alpha : ℤ) (u : ℕ → ℝ) (k : ℕ) :
    (¬(a < c ∧ c < b) ∨ ¬(0 < n) →
      ∃ m, generate_triangular n a b c u k =
        (Except.error (GenError.invalidParameters m), k)) ∧
    (¬(0 < n) →
      ∃ m, generate_pareto_distribution n xm alpha u k =
        (Except.error (GenError.invalidParameters m), k)) ∧
    (¬(0 < n) →
      ∃ m, generate_gamma_distribution_samples n u k =
        (Except.error (GenError.invalidParameters m), k)) := by
  refine ⟨fun h =>
      ⟨"a < c < b must be satisfied and n_samples must be greater than 0", ?_⟩,
    fun h => ⟨"n_samples must be greater than 0", ?_⟩,
    fun h => ⟨"n_samples must be greater than 0", ?_⟩⟩
  · rw [generate_triangular, if_pos h]
  · rw [generate_pareto_distribution, if_pos h]
  · rw [generate_gamma_distribution_samples, if_pos h]

/-- Witness for C6: generate_triangular with n = 0 at cursor 7 fails with
InvalidParameters and leaves the cursor at 7. -/
theorem invalid_inputs_leave_stream_unchanged_witness :
    ∃ m, generate_triangular 0 1 3 2 (fun _ => 0) 7 =
      (Except.error (GenError.invalidParameters m), 7) :=
  (invalid_inputs_leave_stream_unchanged 0 1 3 2 1 1 (fun _ => 0) 7).1
    (Or.inr (by norm_num))

/-- Counterexample to claim C7 as stated: generate_pareto_distribution with
n = 1, xm = 3 and alpha = 0 passes the validation (alpha is an integer) and
then fails with the ZeroDivisionError of the integer division 1/alpha, which is
not an InvalidParameters error; the generators do have a second failure
mode. -/
theorem pareto_alpha_zero_division_failure :
    (generate_pareto_distribution 1 3 0 (fun _ => 0) 0).1 =
      Except.error GenError.zeroDivision ∧
    ∀ m, (generate_pareto_distribution 1 3 0 (fun _ => 0) 0).1 ≠
      Except.error (GenError.invalidParameters m) := by
  have h : (generate_pareto_distribution 1 3 0 (fun _ => 0) 0).1 =
      Except.error GenError.zeroDivision := by
    rw [generate_pareto_distribution, if_neg (by norm_num)]
    show (get_pareto_value_from_probability (draws (fun _ => 0) 0 (1 : ℤ).toNat) 3 0) =
      Except.error GenError.zeroDivision
    rw [show (1 : ℤ).toNat = 1 from rfl, show draws (fun _ => (0 : ℝ)) 0 1 = [0] from rfl]
    rw [get_pareto_value_from_probability, get_x_from_pareto, if_pos rfl]
  exact ⟨h, fun m hm => by rw [h] at hm; simp at hm⟩

/-- Claim C7 as amended: every failure of generate_triangular or of
generate_gamma_distribution_samples is an InvalidParameters error; every
failure of generate_pareto_distribution is an InvalidParameters error or, only
when alpha = 0, the division by zero error (which Python raises after the
draws, from 1/alpha). -/
theorem failure_modes_characterization (n : ℤ) (a b c xm : ℝ) (alpha : ℤ)
    (u : ℕ → ℝ) (k : ℕ) :
    (∀ e, (generate_triangular n a b c u k).1 = Except.error e →
      ∃ m, e = GenError.invalidParameters m) ∧
    (∀ e, (generate_gamma_distribution_samples n u k).1 = Except.error e →
      ∃ m, e = GenError.invalidParameters m) ∧
    (∀ e, (generate_pareto_distribution n xm alpha u k).1 = Except.error e →
      (∃ m, e = GenError.invalidParameters m) ∨
        (e = GenError.zeroDivision ∧ alpha = 0)) := by
  refine ⟨?_, ?_, ?_⟩
  · intro e he
    rw [generate_triangular] at he
    split at he
    · exact ⟨_, (Except.error.inj he).symm⟩
    · exact absurd he (by simp)
  · intro e he
    rw [generate_gamma_distribution_samples] at he
    split at he
    · exact ⟨_, (Except.error.inj he).symm⟩
    · exact absurd he (by simp)
  · intro e he
    rw [generate_pareto_distribution] at he
    split at he
    · exact Or.inl ⟨_, (Except.error.inj he).symm⟩
    · exact Or.inr (get_pareto_value_from_probability_error he)

/-- Witness for the amended C7: the failure of generate_triangular at n = 0 is
an InvalidParameters error. -/
theorem failure_modes_characterization_witness :
    ∃ m, GenError.invalidParameters
        "a < c < b must be satisfied and n_samples must be greater than 0" =
      GenError.invalidParameters m :=
  (failure_modes_characterization 0 1 3 2 1 1 (fun _ => 0) 0).1
    (GenError.invalidParameters
      "a < c < b must be satisfied and n_samples must be greater than 0")
    (by rw [generate_triangular, if_pos (Or.inr (by norm_num))])

/-! ### Determinism -/

lemma spec_gamma_accepted_congr (n : ℕ) (u₁ u₂ : ℕ → ℝ) (k : ℕ)
    (h : ∀ i, i < 2 * n → u₁ (k + i) = u₂ (k + i)) :
    spec_gamma_accepted n u₁ k = spec_gamma_accepted n u₂ k := by
  rw [spec_gamma_accepted, spec_gamma_accepted]
  refine congrArg _ (List.map_congr_left fun i hi => ?_)
  have hi' : i < n := List.mem_range.mp hi
  have h1 : u₁ (k + i) = u₂ (k + i) := h i (by omega)
  have h2 : u₁ (k + n + i) = u₂ (k + n + i) := by
    have := h (n + i) (by omega)
    simpa [Nat.add_assoc] using this
  rw [h1, h2]

/-- Claim C8: each generator is a deterministic function of its parameters and
of the portion of the uniform stream it consumes: two streams that agree on the
consumed draws (at most 2 n values from the cursor on) give identical results,
so re-seeding and repeating the same calls in the same order reproduces
identical output sequences. -/
theorem generators_deterministic_on_consumed_draws (n : ℤ) (a b c xm : ℝ)
    (alpha : ℤ) (u₁ u₂ : ℕ → ℝ) (k : ℕ)
    (h : ∀ i, i < 2 * n.toNat → u₁ (k + i) = u₂ (k + i)) :
    generate_triangular n a b c u₁ k = generate_triangular n a b c u₂ k ∧
    generate_pareto_distribution n xm alpha u₁ k =
      generate_pareto_distribution n xm alpha u₂ k ∧
    generate_gamma_distribution_samples n u₁ k =
      generate_gamma_distribution_samples n u₂ k := by
  have hd : draws u₁ k n.toNat = draws u₂ k n.toNat :=
    draws_congr _ _ _ _ (fun i hi => h i (by omega))
  refine ⟨?_, ?_, ?_⟩
  · simp only [generate_triangular, hd]
  · simp only [generate_pareto_distribution, hd]
  · by_cases hn : 0 < n
    · rw [generate_gamma_ok hn u₁ k, generate_gamma_ok hn u₂ k,
        spec_gamma_accepted_congr n.toNat u₁ u₂ k h]
    · simp [generate_gamma_distribution_samples, hn]

/-- Witness for C8 at n = 1: two streams that agree on the two consumed draws
but differ afterwards give identical results for all three generators. -/
theorem generators_deterministic_on_consumed_draws_witness :
    (∀ i, i < 2 * (1 : ℤ).toNat →
      (fun _ => (0 : ℝ)) (0 + i) = (fun j => if j < 2 then (0 : ℝ) else 1/2) (0 + i)) ∧
    (generate_triangular 1 0 2 1 (fun _ => 0) 0 =
        generate_triangular 1 0 2 1 (fun j => if j < 2 then (0 : ℝ) else 1/2) 0 ∧
      generate_pareto_distribution 1 3 2 (fun _ => 0) 0 =
        generate_pareto_distribution 1 3 2 (fun j => if j < 2 then (0 : ℝ) else 1/2) 0 ∧
      generate_gamma_distribution_samples 1 (fun _ => 0) 0 =
        generate_gamma_distribution_samples 1 (fun j => if j < 2 then (0 : ℝ) else 1/2) 0) := by
  have hyp : ∀ i, i < 2 * (1 : ℤ).toNat →
      (fun _ => (0 : ℝ)) (0 + i) = (fun j => if j < 2 then (0 : ℝ) else 1/2) (0 + i) := by
    intro i hi
    have h2 : 0 + i < 2 := by omega
    show (0 : ℝ) = if 0 + i < 2 then (0 : ℝ) else 1/2
    rw [if_pos h2]
  exact ⟨hyp,
    generators_deterministic_on_consumed_draws 1 0 2 1 3 2 (fun _ => 0)
      (fun j => if j < 2 then (0 : ℝ) else 1/2) 0 hyp⟩

end SamplingExercise
